import Mathlib

/-
Verification of the connection/broadcast core of src/backend/main.py.

The embedding models:
- Python dicts as association lists (insertion-ordered, replace-in-place on
  existing keys, new keys appended at the end), matching CPython dict
  semantics relied on by the source;
- the json module (json.loads / json.dumps with default separators
  ", " and ": ", ensure_ascii=True) on the fragment the relay exchanges:
  null, booleans, integer numbers, strings, arrays, objects.  Fractional and
  exponent number forms are outside the modelled fragment;
- WebSocket connections as opaque numeric handles (ConnId); a send that
  raises is modelled by membership of the handle in an explicit fault list;
- an exception escaping a handler (and hence terminating that client's
  session via the endpoint's outer handler) as an Option-none result.

Source classes ConnectionManager (collaboration relay, nested
room -> document -> client -> websocket dicts) and ChatConnectionManager
(chat relay, room -> connection list plus room -> bounded history) are
embedded with their operations kept name-for-name.
-/

/-- Connection handles: opaque identifiers for websockets. -/
abbrev ConnId := Nat

/-- Python dict lookup (d.get(k) / k in d). -/
def lookupA {α : Type} : List (String × α) → String → Option α
  | [], _ => none
  | (k, v) :: rest, key => if k = key then some v else lookupA rest key

/-- Python dict assignment d[key] = v: replaces in place if the key exists,
otherwise appends the new entry at the end (CPython insertion order). -/
def insertA {α : Type} : List (String × α) → String → α → List (String × α)
  | [], key, v => [(key, v)]
  | (k, w) :: rest, key, v => if k = key then (key, v) :: rest else (k, w) :: insertA rest key v

/-- Python dict deletion del d[key]: removes the entry with the given key. -/
def eraseA {α : Type} : List (String × α) → String → List (String × α)
  | [], _ => []
  | (k, v) :: rest, key => if k = key then eraseA rest key else (k, v) :: eraseA rest key

/-- JSON values, as produced by json.loads (integer numbers only: the relay
payloads modelled here use no fractional literals). -/
inductive Json where
  | null : Json
  | bool : Bool → Json
  | num : Int → Json
  | str : String → Json
  | arr : List Json → Json
  | obj : List (String × Json) → Json

def hexDigit (n : Nat) : Char :=
  if n < 10 then Char.ofNat (48 + n) else Char.ofNat (87 + n)

/-- One character of json.dumps string output (ensure_ascii=True). -/
def escChar (c : Char) : String :=
  if c = '"' then "\\\""
  else if c = '\\' then "\\\\"
  else if c = '\n' then "\\n"
  else if c = '\t' then "\\t"
  else if c = '\r' then "\\r"
  else if c.toNat < 32 ∨ c.toNat ≥ 127 then
    "\\u" ++ String.mk [hexDigit (c.toNat / 4096 % 16), hexDigit (c.toNat / 256 % 16),
                        hexDigit (c.toNat / 16 % 16), hexDigit (c.toNat % 16)]
  else String.singleton c

def escString (s : String) : String :=
  "\"" ++ String.join (s.data.map escChar) ++ "\""

mutual

/-- json.dumps with the default separators (", " between items, ": " after keys). -/
def dumps : Json → String
  | .null => "null"
  | .bool true => "true"
  | .bool false => "false"
  | .num n => toString n
  | .str s => escString s
  | .arr l => "[" ++ dumpsList l ++ "]"
  | .obj l => "\x7b" ++ dumpsObj l ++ "\x7d"

def dumpsList : List Json → String
  | [] => ""
  | [x] => dumps x
  | x :: y :: rest => dumps x ++ ", " ++ dumpsList (y :: rest)

def dumpsObj : List (String × Json) → String
  | [] => ""
  | [(k, v)] => escString k ++ ": " ++ dumps v
  | (k, v) :: y :: rest => escString k ++ ": " ++ dumps v ++ ", " ++ dumpsObj (y :: rest)

end

def lbraceChar : Char := Char.ofNat 123

def rbraceChar : Char := Char.ofNat 125

/-- JSON insignificant whitespace. -/
def skipWs : List Char → List Char
  | [] => []
  | c :: rest => if c = ' ' ∨ c = '\t' ∨ c = '\n' ∨ c = '\r' then skipWs rest else c :: rest

def hexVal (c : Char) : Option Nat :=
  if '0' ≤ c ∧ c ≤ '9' then some (c.toNat - 48)
  else if 'a' ≤ c ∧ c ≤ 'f' then some (c.toNat - 87)
  else if 'A' ≤ c ∧ c ≤ 'F' then some (c.toNat - 55)
  else none

/-- Body of a JSON string literal after the opening quote, with escapes. -/
def parseStrChars : List Char → Option (List Char × List Char)
  | [] => none
  | '\\' :: e :: rest =>
    if e = '"' ∨ e = '\\' ∨ e = '/' then
      (parseStrChars rest).map (fun p => (e :: p.1, p.2))
    else if e = 'n' then (parseStrChars rest).map (fun p => ('\n' :: p.1, p.2))
    else if e = 't' then (parseStrChars rest).map (fun p => ('\t' :: p.1, p.2))
    else if e = 'r' then (parseStrChars rest).map (fun p => ('\r' :: p.1, p.2))
    else if e = 'b' then (parseStrChars rest).map (fun p => (Char.ofNat 8 :: p.1, p.2))
    else if e = 'f' then (parseStrChars rest).map (fun p => (Char.ofNat 12 :: p.1, p.2))
    else if e = 'u' then
      match rest with
      | h1 :: h2 :: h3 :: h4 :: rest' =>
        match hexVal h1, hexVal h2, hexVal h3, hexVal h4 with
        | some a, some b, some c, some d =>
          (parseStrChars rest').map
            (fun p => (Char.ofNat (a * 4096 + b * 256 + c * 16 + d) :: p.1, p.2))
        | _, _, _, _ => none
      | _ => none
    else none
  | c :: rest =>
    if c = '"' then some ([], rest)
    else (parseStrChars rest).map (fun p => (c :: p.1, p.2))

def digitsToNat : List Char → Nat → Nat
  | [], acc => acc
  | c :: rest, acc => digitsToNat rest (acc * 10 + (c.toNat - 48))

def parseIntChars (cs : List Char) : Option (Int × List Char) :=
  match cs with
  | '-' :: rest =>
    let ds := rest.takeWhile Char.isDigit
    if ds = [] then none else some (-(Int.ofNat (digitsToNat ds 0)), rest.dropWhile Char.isDigit)
  | _ =>
    let ds := cs.takeWhile Char.isDigit
    if ds = [] then none else some (Int.ofNat (digitsToNat ds 0), cs.dropWhile Char.isDigit)

def dropLit : List Char → List Char → Option (List Char)
  | [], cs => some cs
  | l :: ls, c :: cs => if c = l then dropLit ls cs else none
  | _ :: _, [] => none

mutual

/-- Recursive-descent JSON value parser; the fuel only bounds nesting and
element count and is supplied amply by loads. -/
def parseVal : Nat → List Char → Option (Json × List Char)
  | 0, _ => none
  | fuel + 1, cs =>
    match skipWs cs with
    | [] => none
    | c :: rest =>
      if c = '"' then (parseStrChars rest).map (fun p => (Json.str (String.mk p.1), p.2))
      else if c = lbraceChar then
        match skipWs rest with
        | c' :: rest' =>
          if c' = rbraceChar then some (Json.obj [], rest')
          else parseMembers fuel (c' :: rest') []
        | [] => none
      else if c = '[' then
        match skipWs rest with
        | c' :: rest' =>
          if c' = ']' then some (Json.arr [], rest')
          else parseElems fuel (c' :: rest') []
        | [] => none
      else if c = 't' then (dropLit ['r', 'u', 'e'] rest).map (fun r => (Json.bool true, r))
      else if c = 'f' then (dropLit ['a', 'l', 's', 'e'] rest).map (fun r => (Json.bool false, r))
      else if c = 'n' then (dropLit ['u', 'l', 'l'] rest).map (fun r => (Json.null, r))
      else if c = '-' ∨ c.isDigit then
        (parseIntChars (c :: rest)).map (fun p => (Json.num p.1, p.2))
      else none

def parseElems : Nat → List Char → List Json → Option (Json × List Char)
  | 0, _, _ => none
  | fuel + 1, cs, acc =>
    match parseVal fuel cs with
    | none => none
    | some (v, rest) =>
      match skipWs rest with
      | c :: rest' =>
        if c = ',' then parseElems fuel rest' (acc ++ [v])
        else if c = ']' then some (Json.arr (acc ++ [v]), rest')
        else none
      | [] => none

def parseMembers : Nat → List Char → List (String × Json) → Option (Json × List Char)
  | 0, _, _ => none
  | fuel + 1, cs, acc =>
    match skipWs cs with
    | c :: rest =>
      if c = '"' then
        match parseStrChars rest with
        | none => none
        | some (kcs, rest') =>
          match skipWs rest' with
          | c' :: rest'' =>
            if c' = ':' then
              match parseVal fuel rest'' with
              | none => none
              | some (v, rest3) =>
                let acc' := insertA acc (String.mk kcs) v
                match skipWs rest3 with
                | c3 :: rest4 =>
                  if c3 = ',' then parseMembers fuel rest4 acc'
                  else if c3 = rbraceChar then some (Json.obj acc', rest4)
                  else none
                | [] => none
            else none
          | [] => none
      else none
    | [] => none

end

/-- json.loads: parse one JSON document with optional surrounding whitespace;
duplicate object keys follow dict-assignment semantics (last value wins). -/
def loads (s : String) : Option Json :=
  match parseVal (s.length + 1) s.data with
  | some (v, rest) => if skipWs rest = [] then some v else none
  | none => none

/-- Result of one send attempt inside a broadcast loop: the target
connection, the text passed to send_text, and whether the send succeeded
(ok = false models send_text raising; the loop catches and logs it). -/
structure Att where
  conn : ConnId
  payload : String
  ok : Bool
deriving DecidableEq

/-- A value handed to a broadcast: either already a str, or an object that
the broadcast serializes with json.dumps first. -/
inductive WireVal where
  | text : String → WireVal
  | json : Json → WireVal

/-- The "convert to JSON if it is not a string already" step of both
broadcast methods. -/
def WireVal.toText : WireVal → String
  | .text s => s
  | .json j => dumps j

/-- ConnectionManager (collaboration relay): nested dicts
room_id -> document_id -> client/user id -> websocket. -/
structure ConnectionManager where
  active_connections : List (String × List (String × List (String × ConnId)))
deriving DecidableEq

/-- ConnectionManager.broadcast: send to every client registered under
(room, document); each send is attempted, a raising send is caught and
logged, nothing is removed. -/
def ConnectionManager.broadcast (m : ConnectionManager) (room_id document_id : String)
    (message : WireVal) (faults : List ConnId) : List Att :=
  match lookupA m.active_connections room_id with
  | none => []
  | some docs =>
    match lookupA docs document_id with
    | none => []
    | some users =>
      users.map (fun p => ⟨p.2, message.toText, decide (p.2 ∉ faults)⟩)

/-- ConnectionManager.broadcast_update: like broadcast but skipping the
entry whose user id equals the sender id. -/
def ConnectionManager.broadcast_update (m : ConnectionManager) (room_id document_id sender_id : String)
    (update : WireVal) (faults : List ConnId) : List Att :=
  match lookupA m.active_connections room_id with
  | none => []
  | some docs =>
    match lookupA docs document_id with
    | none => []
    | some users =>
      users.filterMap (fun p =>
        if p.1 = sender_id then none
        else some ⟨p.2, update.toText, decide (p.2 ∉ faults)⟩)

/-- The awareness envelope built by broadcast_awareness. -/
def awarenessMessage (users : List String) : Json :=
  Json.obj [("type", Json.str "awareness"), ("users", Json.arr (users.map Json.str)),
            ("count", Json.num (Int.ofNat users.length))]

/-- ConnectionManager.broadcast_awareness: if the (room, document) entry
exists, broadcast the awareness envelope listing its client keys. -/
def ConnectionManager.broadcast_awareness (m : ConnectionManager) (room_id document_id : String)
    (faults : List ConnId) : List Att :=
  match lookupA m.active_connections room_id with
  | none => []
  | some docs =>
    match lookupA docs document_id with
    | none => []
    | some users =>
      m.broadcast room_id document_id (.json (awarenessMessage (users.map Prod.fst))) faults

/-- ConnectionManager.connect: create missing levels, store (replace) the
websocket at (room, document, user), then broadcast awareness. -/
def ConnectionManager.connect (m : ConnectionManager) (websocket : ConnId)
    (room_id user_id document_id : String) (faults : List ConnId) :
    ConnectionManager × List Att :=
  let docs := (lookupA m.active_connections room_id).getD []
  let users := (lookupA docs document_id).getD []
  let m' : ConnectionManager :=
    ⟨insertA m.active_connections room_id (insertA docs document_id (insertA users user_id websocket))⟩
  (m', m'.broadcast_awareness room_id document_id faults)

/-- ConnectionManager.disconnect: remove the (room, document, user) leaf if
present, pruning a document entry left empty and then a room entry left
empty; returns whether anything was removed. -/
def ConnectionManager.disconnect (m : ConnectionManager) (room_id user_id document_id : String) :
    ConnectionManager × Bool :=
  match lookupA m.active_connections room_id with
  | none => (m, false)
  | some docs =>
    match lookupA docs document_id with
    | none => (m, false)
    | some users =>
      match lookupA users user_id with
      | none => (m, false)
      | some _ =>
        let users' := eraseA users user_id
        let docs' := if users' = [] then eraseA docs document_id
                     else insertA docs document_id users'
        let ac' := if docs' = [] then eraseA m.active_connections room_id
                   else insertA m.active_connections room_id docs'
        (⟨ac'⟩, true)

/-- ConnectionManager.get_active_users: room-level sums the per-document
client-dict sizes; document-level is that dict's size; 0 if absent. -/
def ConnectionManager.get_active_users (m : ConnectionManager) (room_id : String)
    (document_id : Option String) : Nat :=
  match lookupA m.active_connections room_id with
  | none => 0
  | some docs =>
    match document_id with
    | none => (docs.map (fun p => p.2.length)).sum
    | some d =>
      match lookupA docs d with
      | some users => users.length
      | none => 0

def pongMessage : Json := Json.obj [("type", Json.str "pong")]

/-- The per-message body of the collaboration websocket endpoint
(lines 330-351): classify the inbound text and dispatch.  none models an
exception escaping the loop (only the unguarded pong send can raise here);
the broadcasts catch their own send failures. -/
def handleCollabMessage (m : ConnectionManager) (room_id user_id document_id : String)
    (websocket : ConnId) (data : String) (faults : List ConnId) : Option (List Att) :=
  match loads data with
  | some (Json.obj fields) =>
    match lookupA fields "type" with
    | some (Json.str t) =>
      if t = "sync" then
        some (m.broadcast_update room_id document_id user_id (.json (Json.obj fields)) faults)
      else if t = "awareness" then
        some (m.broadcast room_id document_id (.json (Json.obj fields)) faults)
      else if t = "ping" then
        if websocket ∈ faults then none
        else some [⟨websocket, dumps pongMessage, true⟩]
      else some []
    | some _ => some []
    | none => some (m.broadcast_update room_id document_id user_id (.text data) faults)
  | some _ => some (m.broadcast_update room_id document_id user_id (.text data) faults)
  | none => some (m.broadcast_update room_id document_id user_id (.text data) faults)

/-- The disconnect branch of the collaboration endpoint (lines 353-362):
unregister, then re-broadcast awareness; the source calls
broadcast_awareness without inspecting disconnect's return value. -/
def handleCollabDisconnect (m : ConnectionManager) (room_id user_id document_id : String)
    (faults : List ConnId) : (ConnectionManager × Bool) × List Att :=
  let r := m.disconnect room_id user_id document_id
  (r, r.1.broadcast_awareness room_id document_id faults)

/-- Pydantic model ChatMessage {userId, userName, text, timestamp, id?}. -/
structure ChatMessage where
  userId : String
  userName : String
  text : String
  timestamp : String
  id : Option String
deriving DecidableEq

/-- ChatMessage(**msg_data): pydantic validation of the payload dict on the
string-typed payloads the relay handles; a missing or non-string required
field raises ValidationError (modelled as none). -/
def mkChatMessage (fields : List (String × Json)) : Option ChatMessage :=
  match lookupA fields "userId", lookupA fields "userName",
        lookupA fields "text", lookupA fields "timestamp" with
  | some (Json.str uid), some (Json.str un), some (Json.str tx), some (Json.str ts) =>
    match lookupA fields "id" with
    | none => some ⟨uid, un, tx, ts, none⟩
    | some (Json.str i) => some ⟨uid, un, tx, ts, some i⟩
    | some Json.null => some ⟨uid, un, tx, ts, none⟩
    | some _ => none
  | _, _, _, _ => none

/-- msg.dict(): the pydantic field dict in declaration order, id rendered
as null when absent. -/
def ChatMessage.toJson (msg : ChatMessage) : Json :=
  Json.obj [("userId", Json.str msg.userId), ("userName", Json.str msg.userName),
            ("text", Json.str msg.text), ("timestamp", Json.str msg.timestamp),
            ("id", match msg.id with | some i => Json.str i | none => Json.null)]

/-- ChatConnectionManager: room -> connection list, room -> recent messages. -/
structure ChatConnectionManager where
  active_chats : List (String × List ConnId)
  message_history : List (String × List ChatMessage)
deriving DecidableEq

/-- self.max_history -/
def max_history : Nat := 50

/-- The buffer-level step of add_to_history: append the message, then trim
to the most recent max_history entries. -/
def appendTrim (h : List ChatMessage) (message : ChatMessage) : List ChatMessage :=
  let h' := h ++ [message]
  if h'.length > max_history then h'.drop (h'.length - max_history) else h'

/-- ChatConnectionManager.add_to_history: create the room buffer if absent,
append, and keep only the last max_history entries. -/
def ChatConnectionManager.add_to_history (m : ChatConnectionManager) (room_id : String)
    (message : ChatMessage) : ChatConnectionManager :=
  let h := (lookupA m.message_history room_id).getD []
  { m with message_history := insertA m.message_history room_id (appendTrim h message) }

/-- ChatConnectionManager.broadcast: when the envelope is a chat message,
assign an id if missing (newId models the wall-clock id the source
generates), validate and store it in history, then send the serialized
envelope to every connection in the room; connections whose send raised are
removed from the room's list after the loop.  none models an exception from
the history step (non-dict message payload or failed validation) escaping
the method. -/
def ChatConnectionManager.broadcast (m : ChatConnectionManager) (room_id : String)
    (message : List (String × Json)) (newId : String) (faults : List ConnId) :
    Option (ChatConnectionManager × List Att) :=
  match lookupA m.active_chats room_id with
  | none => some (m, [])
  | some conns =>
    let step : Option (ChatConnectionManager × List (String × Json)) :=
      match lookupA message "type", lookupA message "message" with
      | some (Json.str t), some md =>
        if t = "message" then
          match md with
          | Json.obj mdf =>
            let mdf' := if (lookupA mdf "id").isSome then mdf
                        else insertA mdf "id" (Json.str newId)
            match mkChatMessage mdf' with
            | some cm => some (m.add_to_history room_id cm, insertA message "message" (Json.obj mdf'))
            | none => none
          | _ => none
        else some (m, message)
      | _, _ => some (m, message)
    match step with
    | none => none
    | some (m', message') =>
      let message_json := dumps (Json.obj message')
      let atts := conns.map (fun c => (⟨c, message_json, decide (c ∉ faults)⟩ : Att))
      let disconnected := conns.filter (fun c => decide (c ∈ faults))
      let conns' := disconnected.foldl (fun acc c => acc.erase c) conns
      some ({ m' with active_chats := insertA m'.active_chats room_id conns' }, atts)

/-- ChatConnectionManager.send_history: send the room's buffered messages to
one connection, only when the buffer exists and is non-empty; a send
failure is caught and logged. -/
def ChatConnectionManager.send_history (m : ChatConnectionManager) (websocket : ConnId)
    (room_id : String) (faults : List ConnId) : List Att :=
  match lookupA m.message_history room_id with
  | some msgs =>
    if msgs = [] then []
    else
      let history_message := Json.obj [("type", Json.str "history"),
        ("messages", Json.arr (msgs.map ChatMessage.toJson))]
      [⟨websocket, dumps history_message, decide (websocket ∉ faults)⟩]
  | none => []

/-- ChatConnectionManager.connect: append the connection to the room's list
(creating it if needed), create an empty history buffer if absent, then
send the history to the new connection only. -/
def ChatConnectionManager.connect (m : ChatConnectionManager) (websocket : ConnId)
    (room_id : String) (faults : List ConnId) : ChatConnectionManager × List Att :=
  let conns := (lookupA m.active_chats room_id).getD []
  let m1 := { m with active_chats := insertA m.active_chats room_id (conns ++ [websocket]) }
  let m2 := if (lookupA m1.message_history room_id).isSome then m1
            else { m1 with message_history := insertA m1.message_history room_id [] }
  (m2, m2.send_history websocket room_id faults)

/-- ChatConnectionManager.disconnect: remove the connection from the room's
list if present, and delete the room's list entry when it becomes empty
(the history buffer is deliberately retained). -/
def ChatConnectionManager.disconnect (m : ChatConnectionManager) (websocket : ConnId)
    (room_id : String) : ChatConnectionManager :=
  match lookupA m.active_chats room_id with
  | none => m
  | some conns =>
    if websocket ∈ conns then
      let conns' := conns.erase websocket
      if conns' = [] then { m with active_chats := eraseA m.active_chats room_id }
      else { m with active_chats := insertA m.active_chats room_id conns' }
    else m

/-- ChatConnectionManager.get_active_connections: size of one room's list,
or the total over all rooms. -/
def ChatConnectionManager.get_active_connections (m : ChatConnectionManager)
    (room_id : Option String) : Nat :=
  match room_id with
  | none => (m.active_chats.map (fun p => p.2.length)).sum
  | some r =>
    match lookupA m.active_chats r with
    | some conns => conns.length
    | none => 0

/-- The per-message body of the chat websocket endpoint (lines 510-529):
non-JSON input is logged and dropped; a parsed object is dispatched on its
"type"; none models an exception escaping the loop (message.get raising
AttributeError on non-dict JSON, a history-step exception inside broadcast,
or the unguarded pong send raising), after which the endpoint's outer
handler terminates the session. -/
def handleChatMessage (m : ChatConnectionManager) (room_id : String) (websocket : ConnId)
    (data : String) (newId : String) (faults : List ConnId) :
    Option (ChatConnectionManager × List Att) :=
  match loads data with
  | none => some (m, [])
  | some (Json.obj fields) =>
    match lookupA fields "type" with
    | some (Json.str t) =>
      if t = "message" then m.broadcast room_id fields newId faults
      else if t = "ping" then
        if websocket ∈ faults then none
        else some (m, [⟨websocket, dumps pongMessage, true⟩])
      else some (m, [])
    | _ => some (m, [])
  | some _ => none

/-- One registry lifecycle event on the collaboration relay. -/
inductive CollabOp where
  | reg : ConnId → String → String → String → CollabOp
  | unreg : String → String → String → CollabOp

def applyCollabOp (m : ConnectionManager) : CollabOp → ConnectionManager
  | .reg ws room user doc => (m.connect ws room user doc []).1
  | .unreg room user doc => (m.disconnect room user doc).1

def emptyCollab : ConnectionManager := ⟨[]⟩

/-- The registry state after a sequence of connect/disconnect events
starting from the initial empty registry. -/
def applyCollabOps (ops : List CollabOp) : ConnectionManager :=
  ops.foldl applyCollabOp emptyCollab

/-- One registry lifecycle event on the chat relay. -/
inductive ChatOp where
  | reg : ConnId → String → ChatOp
  | unreg : ConnId → String → ChatOp

def applyChatOp (m : ChatConnectionManager) : ChatOp → ChatConnectionManager
  | .reg ws room => (m.connect ws room []).1
  | .unreg ws room => m.disconnect ws room

def emptyChat : ChatConnectionManager := ⟨[], []⟩

/-- The chat registry state after a sequence of connect/disconnect events
starting from the initial empty registry. -/
def applyChatOps (ops : List ChatOp) : ChatConnectionManager :=
  ops.foldl applyChatOp emptyChat

/-- Full traversal of the collaboration registry: one (room, document,
client) triple per registered leaf connection. -/
def collabLeaves (m : ConnectionManager) : List (String × String × String) :=
  m.active_connections.flatMap (fun rp =>
    rp.2.flatMap (fun dp => dp.2.map (fun up => (rp.1, dp.1, up.1))))

/-- Full traversal of the chat registry: one (room, connection) pair per
registered connection. -/
def chatLeaves (m : ChatConnectionManager) : List (String × ConnId) :=
  m.active_chats.flatMap (fun rp => rp.2.map (fun c => (rp.1, c)))

/-- No dangling empty containers in the collaboration registry: every room
entry holds at least one document entry and every document entry holds at
least one client. -/
def collabNoEmpty (m : ConnectionManager) : Prop :=
  ∀ p ∈ m.active_connections, p.2 ≠ [] ∧ ∀ q ∈ p.2, q.2 ≠ []

/-- No dangling empty containers in the chat registry: every room entry
holds at least one connection. -/
def chatNoEmpty (m : ChatConnectionManager) : Prop :=
  ∀ p ∈ m.active_chats, p.2 ≠ []

/-- Well-formedness of the nested dict encoding: keys are unique at each
level (automatic for Python dicts). -/
def collabWF (m : ConnectionManager) : Prop :=
  (m.active_connections.map Prod.fst).Nodup ∧
    ∀ p ∈ m.active_connections, (p.2.map Prod.fst).Nodup

/-- Well-formedness of the chat room dict encoding. -/
def chatWF (m : ChatConnectionManager) : Prop :=
  (m.active_chats.map Prod.fst).Nodup

theorem lookupA_insertA_self {α : Type} (l : List (String × α)) (k : String) (v : α) :
    lookupA (insertA l k v) k = some v := by
  induction l with
  | nil => simp [insertA, lookupA]
  | cons p rest ih =>
    obtain ⟨k', v'⟩ := p
    by_cases h : k' = k
    · subst h; simp [insertA, lookupA]
    · simp [insertA, lookupA, h, ih]

theorem lookupA_insertA_ne {α : Type} (l : List (String × α)) (k k' : String) (v : α)
    (h : k' ≠ k) : lookupA (insertA l k v) k' = lookupA l k' := by
  induction l with
  | nil => simp [insertA, lookupA, h.symm]
  | cons p rest ih =>
    obtain ⟨k0, v0⟩ := p
    by_cases h0 : k0 = k
    · subst h0
      have : k0 ≠ k' := fun hh => h (hh ▸ rfl)
      simp [insertA, lookupA, this]
    · by_cases h1 : k0 = k'
      · subst h1; simp [insertA, lookupA, h0]
      · simp [insertA, lookupA, h0, h1, ih]

theorem lookupA_eraseA_self {α : Type} (l : List (String × α)) (k : String) :
    lookupA (eraseA l k) k = none := by
  induction l with
  | nil => simp [eraseA, lookupA]
  | cons p rest ih =>
    obtain ⟨k', v'⟩ := p
    by_cases h : k' = k
    · simp [eraseA, h, ih]
    · simp [eraseA, lookupA, h, ih]

theorem lookupA_eraseA_ne {α : Type} (l : List (String × α)) (k k' : String)
    (h : k' ≠ k) : lookupA (eraseA l k) k' = lookupA l k' := by
  induction l with
  | nil => simp [eraseA]
  | cons p rest ih =>
    obtain ⟨k0, v0⟩ := p
    by_cases h0 : k0 = k
    · subst h0
      have : k0 ≠ k' := fun hh => h (hh ▸ rfl)
      simp [eraseA, lookupA, this, ih]
    · simp [eraseA, lookupA, h0, ih]

theorem mem_insertA {α : Type} {l : List (String × α)} {k : String} {v : α}
    {p : String × α} (h : p ∈ insertA l k v) : p = (k, v) ∨ p ∈ l := by
  induction l with
  | nil => simpa [insertA] using h
  | cons q rest ih =>
    obtain ⟨k0, v0⟩ := q
    by_cases h0 : k0 = k
    · simp only [insertA, if_pos h0] at h
      rcases List.mem_cons.mp h with h1 | h1
      · exact Or.inl h1
      · exact Or.inr (List.mem_cons_of_mem _ h1)
    · simp only [insertA, if_neg h0] at h
      rcases List.mem_cons.mp h with h1 | h1
      · exact Or.inr (h1 ▸ List.mem_cons_self _ _)
      · rcases ih h1 with h2 | h2
        · exact Or.inl h2
        · exact Or.inr (List.mem_cons_of_mem _ h2)

theorem mem_eraseA {α : Type} {l : List (String × α)} {k : String}
    {p : String × α} (h : p ∈ eraseA l k) : p ∈ l := by
  induction l with
  | nil => simp [eraseA] at h
  | cons q rest ih =>
    obtain ⟨k0, v0⟩ := q
    by_cases h0 : k0 = k
    · simp only [eraseA, if_pos h0] at h
      exact List.mem_cons_of_mem _ (ih h)
    · simp only [eraseA, if_neg h0] at h
      rcases List.mem_cons.mp h with h1 | h1
      · exact h1 ▸ List.mem_cons_self _ _
      · exact List.mem_cons_of_mem _ (ih h1)

theorem mem_keys_insertA {α : Type} {l : List (String × α)} {k : String} {v : α}
    {a : String} (h : a ∈ (insertA l k v).map Prod.fst) : a = k ∨ a ∈ l.map Prod.fst := by
  rcases List.mem_map.mp h with ⟨p, hp, rfl⟩
  rcases mem_insertA hp with h1 | h1
  · exact Or.inl (by rw [h1])
  · exact Or.inr (List.mem_map.mpr ⟨p, h1, rfl⟩)

theorem keys_insertA_nodup {α : Type} {l : List (String × α)} (k : String) (v : α)
    (h : (l.map Prod.fst).Nodup) : ((insertA l k v).map Prod.fst).Nodup := by
  induction l with
  | nil => simp [insertA]
  | cons q rest ih =>
    obtain ⟨k0, v0⟩ := q
    simp only [List.map_cons, List.nodup_cons] at h
    by_cases h0 : k0 = k
    · subst h0
      simpa [insertA, List.nodup_cons] using h
    · have hrest := ih h.2
      simp only [insertA, if_neg h0, List.map_cons, List.nodup_cons]
      refine ⟨fun hc => ?_, hrest⟩
      rcases mem_keys_insertA hc with h1 | h1
      · exact h0 h1
      · exact h.1 h1

theorem keys_eraseA_sublist {α : Type} (l : List (String × α)) (k : String) :
    ((eraseA l k).map Prod.fst).Sublist (l.map Prod.fst) := by
  induction l with
  | nil => simp [eraseA]
  | cons q rest ih =>
    obtain ⟨k0, v0⟩ := q
    by_cases h0 : k0 = k
    · simp only [eraseA, if_pos h0, List.map_cons]
      exact ih.trans (List.sublist_cons_self _ _)
    · simp only [eraseA, if_neg h0, List.map_cons]
      exact ih.cons₂ _

theorem keys_eraseA_nodup {α : Type} {l : List (String × α)} (k : String)
    (h : (l.map Prod.fst).Nodup) : ((eraseA l k).map Prod.fst).Nodup :=
  h.sublist (keys_eraseA_sublist l k)

theorem lookupA_mem {α : Type} {l : List (String × α)} {k : String} {v : α}
    (h : lookupA l k = some v) : (k, v) ∈ l := by
  induction l with
  | nil => simp [lookupA] at h
  | cons q rest ih =>
    obtain ⟨k0, v0⟩ := q
    by_cases h0 : k0 = k
    · subst h0
      have h' : v0 = v := by simpa [lookupA] using h
      subst h'
      exact List.mem_cons_self _ _
    · simp only [lookupA, if_neg h0] at h
      exact List.mem_cons_of_mem _ (ih h)

theorem lookupA_eq_none_iff {α : Type} {l : List (String × α)} {k : String} :
    lookupA l k = none ↔ k ∉ l.map Prod.fst := by
  induction l with
  | nil => simp [lookupA]
  | cons q rest ih =>
    obtain ⟨k0, v0⟩ := q
    by_cases h0 : k0 = k
    · subst h0; simp [lookupA]
    · simp only [lookupA, if_neg h0, ih, List.map_cons, List.mem_cons]
      constructor
      · intro hh h2
        rcases h2 with h2 | h2
        · exact h0 h2.symm
        · exact hh h2
      · intro hh h2
        exact hh (Or.inr h2)

theorem countP_const {β : Type} (b : Bool) (l : List β) :
    l.countP (fun _ => b) = if b then l.length else 0 := by
  cases b <;> simp

theorem sum_if_lookup {α : Type} (w : α → Nat) (l : List (String × α))
    (hnd : (l.map Prod.fst).Nodup) (r : String) :
    (l.map (fun p => if p.1 = r then w p.2 else 0)).sum =
      (match lookupA l r with | some v => w v | none => 0) := by
  induction l with
  | nil => simp [lookupA]
  | cons q rest ih =>
    obtain ⟨k, v⟩ := q
    simp only [List.map_cons, List.nodup_cons] at hnd
    by_cases hk : k = r
    · subst hk
      have hz : (rest.map (fun p => if p.1 = k then w p.2 else 0)).sum = 0 := by
        apply List.sum_eq_zero
        intro x hx
        rcases List.mem_map.mp hx with ⟨p, hp, rfl⟩
        have : p.1 ≠ k := fun hh => hnd.1 (hh ▸ List.mem_map.mpr ⟨p, hp, rfl⟩)
        simp [this]
      simp [lookupA, List.sum_cons, hz]
    · simp only [List.map_cons, List.sum_cons, if_neg hk, lookupA, Nat.zero_add]
      exact ih hnd.2

theorem chat_count_eq (m : ChatConnectionManager) (h : chatWF m) (r : String) :
    (chatLeaves m).countP (fun t => decide (t.1 = r)) = m.get_active_connections (some r) := by
  unfold chatLeaves ChatConnectionManager.get_active_connections
  rw [List.countP_flatMap]
  have hmap : List.map (List.countP (fun t => decide (t.1 = r)) ∘
        fun rp => rp.2.map fun c => (rp.1, c)) m.active_chats =
      List.map (fun p => if p.1 = r then p.2.length else 0) m.active_chats := by
    apply List.map_congr_left
    intro rp _
    simp only [Function.comp_apply, List.countP_map]
    have : ((fun t : String × ConnId => decide (t.1 = r)) ∘ fun c => (rp.1, c)) =
        fun _ => decide (rp.1 = r) := rfl
    rw [this, countP_const]
    by_cases hr : rp.1 = r <;> simp [hr]
  rw [hmap, sum_if_lookup (fun conns => conns.length) m.active_chats h r]
  cases hx : lookupA m.active_chats r <;> simp [hx]

theorem collab_count_room_eq (m : ConnectionManager) (h : collabWF m) (r : String) :
    (collabLeaves m).countP (fun t => decide (t.1 = r)) = m.get_active_users r none := by
  unfold collabLeaves ConnectionManager.get_active_users
  rw [List.countP_flatMap]
  have hmap : List.map (List.countP (fun t => decide (t.1 = r)) ∘
        fun rp => rp.2.flatMap fun dp => dp.2.map fun up => (rp.1, dp.1, up.1))
        m.active_connections =
      List.map (fun p => if p.1 = r then (p.2.map (fun q => q.2.length)).sum else 0)
        m.active_connections := by
    apply List.map_congr_left
    intro rp _
    simp only [Function.comp_apply, List.countP_flatMap, List.countP_map]
    by_cases hr : rp.1 = r
    · have hone : ∀ dp ∈ rp.2,
          (List.countP (fun t : String × String × String => decide (t.1 = r)) ∘
            (fun dp : String × List (String × ConnId) =>
              List.map (fun up => (rp.1, dp.1, up.1)) dp.2)) dp = dp.2.length := by
        intro dp _
        simp only [Function.comp_apply, List.countP_map]
        have : ((fun t : String × String × String => decide (t.1 = r)) ∘
            fun up : String × ConnId => (rp.1, dp.1, up.1)) = fun _ => decide (rp.1 = r) := rfl
        rw [this, countP_const]
        simp [hr]
      rw [if_pos hr, List.map_congr_left hone]
    · have hzero : ∀ dp ∈ rp.2,
          (List.countP (fun t : String × String × String => decide (t.1 = r)) ∘
            (fun dp : String × List (String × ConnId) =>
              List.map (fun up => (rp.1, dp.1, up.1)) dp.2)) dp = 0 := by
        intro dp _
        simp only [Function.comp_apply, List.countP_map]
        have : ((fun t : String × String × String => decide (t.1 = r)) ∘
            fun up : String × ConnId => (rp.1, dp.1, up.1)) = fun _ => decide (rp.1 = r) := rfl
        rw [this, countP_const]
        simp [hr]
      rw [if_neg hr, List.map_congr_left hzero]
      simp
  rw [hmap, sum_if_lookup (fun docs => (docs.map (fun q => q.2.length)).sum)
    m.active_connections h.1 r]
  cases hx : lookupA m.active_connections r <;> simp [hx]

theorem collab_count_doc_eq (m : ConnectionManager) (h : collabWF m) (r d : String) :
    (collabLeaves m).countP (fun t => decide (t.1 = r ∧ t.2.1 = d)) =
      m.get_active_users r (some d) := by
  unfold collabLeaves ConnectionManager.get_active_users
  rw [List.countP_flatMap]
  have hmap : List.map (List.countP (fun t => decide (t.1 = r ∧ t.2.1 = d)) ∘
        fun rp => rp.2.flatMap fun dp => dp.2.map fun up => (rp.1, dp.1, up.1))
        m.active_connections =
      List.map (fun p => if p.1 = r then
          (match lookupA p.2 d with | some users => users.length | none => 0) else 0)
        m.active_connections := by
    apply List.map_congr_left
    intro rp hrp
    simp only [Function.comp_apply, List.countP_flatMap, List.countP_map]
    by_cases hr : rp.1 = r
    · have hone : ∀ dp ∈ rp.2,
          (List.countP (fun t : String × String × String => decide (t.1 = r ∧ t.2.1 = d)) ∘
            (fun dp : String × List (String × ConnId) =>
              List.map (fun up => (rp.1, dp.1, up.1)) dp.2)) dp =
            if dp.1 = d then dp.2.length else 0 := by
        intro dp _
        simp only [Function.comp_apply, List.countP_map]
        have : ((fun t : String × String × String => decide (t.1 = r ∧ t.2.1 = d)) ∘
            fun up : String × ConnId => (rp.1, dp.1, up.1)) =
            fun _ => decide (rp.1 = r ∧ dp.1 = d) := rfl
        rw [this, countP_const]
        by_cases hd : dp.1 = d <;> simp [hr, hd]
      rw [if_pos hr, List.map_congr_left hone,
        sum_if_lookup (fun users => users.length) rp.2 (h.2 rp hrp) d]
      cases lookupA rp.2 d <;> rfl
    · have hzero : ∀ dp ∈ rp.2,
          (List.countP (fun t : String × String × String => decide (t.1 = r ∧ t.2.1 = d)) ∘
            (fun dp : String × List (String × ConnId) =>
              List.map (fun up => (rp.1, dp.1, up.1)) dp.2)) dp = 0 := by
        intro dp _
        simp only [Function.comp_apply, List.countP_map]
        have : ((fun t : String × String × String => decide (t.1 = r ∧ t.2.1 = d)) ∘
            fun up : String × ConnId => (rp.1, dp.1, up.1)) =
            fun _ => decide (rp.1 = r ∧ dp.1 = d) := rfl
        rw [this, countP_const]
        simp [hr]
      rw [if_neg hr, List.map_congr_left hzero]
      simp
  rw [hmap, sum_if_lookup
    (fun docs => (match lookupA docs d with | some users => users.length | none => 0))
    m.active_connections h.1 r]
  cases hx : lookupA m.active_connections r <;> simp [hx]

theorem insertA_ne_nil {α : Type} (l : List (String × α)) (k : String) (v : α) :
    insertA l k v ≠ [] := by
  cases l with
  | nil => simp [insertA]
  | cons q rest =>
    obtain ⟨a, b⟩ := q
    by_cases h : a = k <;> simp [insertA, h]

theorem collabWF_connect (m : ConnectionManager) (ws : ConnId) (room user doc : String)
    (faults : List ConnId) (h : collabWF m) :
    collabWF (m.connect ws room user doc faults).1 := by
  obtain ⟨h1, h2⟩ := h
  refine ⟨keys_insertA_nodup _ _ h1, ?_⟩
  intro p hp
  rcases mem_insertA hp with rfl | hp'
  · apply keys_insertA_nodup
    cases hl : lookupA m.active_connections room with
    | none => simp [hl]
    | some ds => simpa [hl] using h2 _ (lookupA_mem hl)
  · exact h2 p hp'

theorem collabNoEmpty_connect (m : ConnectionManager) (ws : ConnId) (room user doc : String)
    (faults : List ConnId) (h : collabNoEmpty m) :
    collabNoEmpty (m.connect ws room user doc faults).1 := by
  intro p hp
  rcases mem_insertA hp with rfl | hp'
  · refine ⟨insertA_ne_nil _ _ _, ?_⟩
    intro q hq
    rcases mem_insertA hq with rfl | hq'
    · exact insertA_ne_nil _ _ _
    · cases hl : lookupA m.active_connections room with
      | none => simp [hl] at hq'
      | some ds =>
        rw [hl] at hq'
        exact (h _ (lookupA_mem hl)).2 q hq'
  · exact h p hp'

theorem collabWF_disconnect (m : ConnectionManager) (room user doc : String)
    (h : collabWF m) : collabWF (m.disconnect room user doc).1 := by
  obtain ⟨h1, h2⟩ := h
  cases hl : lookupA m.active_connections room with
  | none => simp only [ConnectionManager.disconnect, hl]; exact ⟨h1, h2⟩
  | some docs =>
    cases hd : lookupA docs doc with
    | none => simp only [ConnectionManager.disconnect, hl, hd]; exact ⟨h1, h2⟩
    | some users =>
      cases hu : lookupA users user with
      | none => simp only [ConnectionManager.disconnect, hl, hd, hu]; exact ⟨h1, h2⟩
      | some ws =>
        simp only [ConnectionManager.disconnect, hl, hd, hu]
        have hdocsN : (docs.map Prod.fst).Nodup := h2 _ (lookupA_mem hl)
        have hdocs' : (((if eraseA users user = [] then eraseA docs doc
            else insertA docs doc (eraseA users user)).map Prod.fst)).Nodup := by
          by_cases hue : eraseA users user = []
          · simp only [if_pos hue]; exact keys_eraseA_nodup _ hdocsN
          · simp only [if_neg hue]; exact keys_insertA_nodup _ _ hdocsN
        by_cases hde : (if eraseA users user = [] then eraseA docs doc
            else insertA docs doc (eraseA users user)) = []
        · simp only [if_pos hde]
          refine ⟨keys_eraseA_nodup _ h1, ?_⟩
          intro p hp
          exact h2 p (mem_eraseA hp)
        · simp only [if_neg hde]
          refine ⟨keys_insertA_nodup _ _ h1, ?_⟩
          intro p hp
          rcases mem_insertA hp with rfl | hp'
          · exact hdocs'
          · exact h2 p hp'

theorem collabNoEmpty_disconnect (m : ConnectionManager) (room user doc : String)
    (h : collabNoEmpty m) : collabNoEmpty (m.disconnect room user doc).1 := by
  cases hl : lookupA m.active_connections room with
  | none => simp only [ConnectionManager.disconnect, hl]; exact h
  | some docs =>
    cases hd : lookupA docs doc with
    | none => simp only [ConnectionManager.disconnect, hl, hd]; exact h
    | some users =>
      cases hu : lookupA users user with
      | none => simp only [ConnectionManager.disconnect, hl, hd, hu]; exact h
      | some ws =>
        simp only [ConnectionManager.disconnect, hl, hd, hu]
        have hmem := h _ (lookupA_mem hl)
        have hdocs' : ∀ q ∈ (if eraseA users user = [] then eraseA docs doc
            else insertA docs doc (eraseA users user)), q.2 ≠ [] := by
          intro q hq
          by_cases hue : eraseA users user = []
          · rw [if_pos hue] at hq
            exact hmem.2 q (mem_eraseA hq)
          · rw [if_neg hue] at hq
            rcases mem_insertA hq with rfl | hq'
            · exact hue
            · exact hmem.2 q hq'
        by_cases hde : (if eraseA users user = [] then eraseA docs doc
            else insertA docs doc (eraseA users user)) = []
        · simp only [if_pos hde]
          intro p hp
          exact h p (mem_eraseA hp)
        · simp only [if_neg hde]
          intro p hp
          rcases mem_insertA hp with rfl | hp'
          · exact ⟨hde, hdocs'⟩
          · exact h p hp'

theorem chat_connect_active (m : ChatConnectionManager) (ws : ConnId) (room : String)
    (faults : List ConnId) :
    (m.connect ws room faults).1.active_chats =
      insertA m.active_chats room ((lookupA m.active_chats room).getD [] ++ [ws]) := by
  simp only [ChatConnectionManager.connect]
  split <;> rfl

theorem chatWF_connect (m : ChatConnectionManager) (ws : ConnId) (room : String)
    (faults : List ConnId) (h : chatWF m) : chatWF (m.connect ws room faults).1 := by
  unfold chatWF at h ⊢
  rw [chat_connect_active]
  exact keys_insertA_nodup _ _ h

theorem chatNoEmpty_connect (m : ChatConnectionManager) (ws : ConnId) (room : String)
    (faults : List ConnId) (h : chatNoEmpty m) : chatNoEmpty (m.connect ws room faults).1 := by
  intro p hp
  rw [chat_connect_active] at hp
  rcases mem_insertA hp with rfl | hp'
  · simp
  · exact h p hp'

theorem chatWF_disconnect (m : ChatConnectionManager) (ws : ConnId) (room : String)
    (h : chatWF m) : chatWF (m.disconnect ws room) := by
  unfold chatWF at h ⊢
  cases hl : lookupA m.active_chats room with
  | none => simp only [ChatConnectionManager.disconnect, hl]; exact h
  | some conns =>
    simp only [ChatConnectionManager.disconnect, hl]
    by_cases hin : ws ∈ conns
    · simp only [if_pos hin]
      by_cases he : conns.erase ws = []
      · simp only [if_pos he]
        exact keys_eraseA_nodup _ h
      · simp only [if_neg he]
        exact keys_insertA_nodup _ _ h
    · simp only [if_neg hin]; exact h

theorem chatNoEmpty_disconnect (m : ChatConnectionManager) (ws : ConnId) (room : String)
    (h : chatNoEmpty m) : chatNoEmpty (m.disconnect ws room) := by
  cases hl : lookupA m.active_chats room with
  | none => simp only [ChatConnectionManager.disconnect, hl]; exact h
  | some conns =>
    simp only [ChatConnectionManager.disconnect, hl]
    by_cases hin : ws ∈ conns
    · simp only [if_pos hin]
      by_cases he : conns.erase ws = []
      · simp only [if_pos he]
        intro p hp
        exact h p (mem_eraseA hp)
      · simp only [if_neg he]
        intro p hp
        rcases mem_insertA hp with rfl | hp'
        · exact he
        · exact h p hp'
    · simp only [if_neg hin]; exact h

theorem collab_reach_inv (ops : List CollabOp) :
    collabWF (applyCollabOps ops) ∧ collabNoEmpty (applyCollabOps ops) := by
  have key : ∀ (l : List CollabOp) (m : ConnectionManager),
      collabWF m → collabNoEmpty m →
      collabWF (l.foldl applyCollabOp m) ∧ collabNoEmpty (l.foldl applyCollabOp m) := by
    intro l
    induction l with
    | nil => intro m hw hn; exact ⟨hw, hn⟩
    | cons op rest ih =>
      intro m hw hn
      cases op with
      | reg ws room user doc =>
        exact ih _ (collabWF_connect m ws room user doc [] hw)
          (collabNoEmpty_connect m ws room user doc [] hn)
      | unreg room user doc =>
        exact ih _ (collabWF_disconnect m room user doc hw)
          (collabNoEmpty_disconnect m room user doc hn)
  exact key ops emptyCollab ⟨by simp [emptyCollab], by simp [emptyCollab]⟩
    (by intro p hp; simp [emptyCollab] at hp)

theorem chat_reach_inv (ops : List ChatOp) :
    chatWF (applyChatOps ops) ∧ chatNoEmpty (applyChatOps ops) := by
  have key : ∀ (l : List ChatOp) (m : ChatConnectionManager),
      chatWF m → chatNoEmpty m →
      chatWF (l.foldl applyChatOp m) ∧ chatNoEmpty (l.foldl applyChatOp m) := by
    intro l
    induction l with
    | nil => intro m hw hn; exact ⟨hw, hn⟩
    | cons op rest ih =>
      intro m hw hn
      cases op with
      | reg ws room =>
        exact ih _ (chatWF_connect m ws room [] hw) (chatNoEmpty_connect m ws room [] hn)
      | unreg ws room =>
        exact ih _ (chatWF_disconnect m ws room hw) (chatNoEmpty_disconnect m ws room hn)
  exact key ops emptyChat (by simp [chatWF, emptyChat])
    (by intro p hp; simp [emptyChat] at hp)

theorem filterMap_if_ne {β : Type} (users : List (String × ConnId)) (sender : String)
    (f : String × ConnId → β) :
    users.filterMap (fun p => if p.1 = sender then none else some (f p)) =
      (users.filter (fun p => decide (p.1 ≠ sender))).map f := by
  induction users with
  | nil => rfl
  | cons q rest ih =>
    by_cases h : q.1 = sender <;> simp [List.filterMap_cons, h, ih]

theorem foldl_erase_cons (a : ConnId) (x : List ConnId) :
    ∀ (d : List ConnId), (∀ c ∈ d, c ≠ a) →
      d.foldl (fun acc c => acc.erase c) (a :: x) =
        a :: d.foldl (fun acc c => acc.erase c) x := by
  intro d
  induction d generalizing x with
  | nil => intro _; rfl
  | cons c d' ih =>
    intro hd
    have hca : ¬(a == c) = true := by
      simp only [beq_iff_eq]
      exact fun hh => hd c (List.mem_cons_self _ _) hh.symm
    simp only [List.foldl_cons, List.erase_cons_tail hca]
    exact ih _ (fun e he => hd e (List.mem_cons_of_mem _ he))

theorem foldl_erase_filter (l : List ConnId) (faults : List ConnId) (h : l.Nodup) :
    (l.filter (fun c => decide (c ∈ faults))).foldl (fun acc c => acc.erase c) l =
      l.filter (fun c => decide (c ∉ faults)) := by
  induction l with
  | nil => rfl
  | cons a rest ih =>
    have hnd := List.nodup_cons.mp h
    by_cases ha : a ∈ faults
    · have hfa : (a :: rest).filter (fun c => decide (c ∈ faults)) =
          a :: rest.filter (fun c => decide (c ∈ faults)) := by
        simp [List.filter_cons, ha]
      have hfb : (a :: rest).filter (fun c => decide (c ∉ faults)) =
          rest.filter (fun c => decide (c ∉ faults)) := by
        simp [List.filter_cons, ha]
      rw [hfa, hfb, List.foldl_cons, List.erase_cons_head]
      exact ih hnd.2
    · have hfa : (a :: rest).filter (fun c => decide (c ∈ faults)) =
          rest.filter (fun c => decide (c ∈ faults)) := by
        simp [List.filter_cons, ha]
      have hfb : (a :: rest).filter (fun c => decide (c ∉ faults)) =
          a :: rest.filter (fun c => decide (c ∉ faults)) := by
        simp [List.filter_cons, ha]
      have hcomm := foldl_erase_cons a rest (rest.filter (fun c => decide (c ∈ faults)))
          (fun c hc hh => by
            rcases List.mem_filter.mp hc with ⟨hc1, _⟩
            exact hnd.1 (hh ▸ hc1))
      rw [hfa, hfb, hcomm, ih hnd.2]

theorem appendTrim_length_le (h : List ChatMessage) (msg : ChatMessage)
    (hh : h.length ≤ max_history) : (appendTrim h msg).length ≤ max_history := by
  unfold appendTrim
  by_cases hc : (h ++ [msg]).length > max_history
  · simp only [if_pos hc, List.length_drop]
    omega
  · simp only [if_neg hc]
    omega

theorem appendTrim_evict (h : List ChatMessage) (msg : ChatMessage)
    (hh : h.length = max_history) : appendTrim h msg = h.tail ++ [msg] := by
  unfold appendTrim
  have h50 : max_history = 50 := rfl
  have hlen : (h ++ [msg]).length = max_history + 1 := by
    simp [List.length_append, hh]
  rw [if_pos (by omega), hlen]
  have h1 : max_history + 1 - max_history = 1 := by omega
  rw [h1, List.drop_append_of_le_length (by omega), List.drop_one]

theorem foldl_appendTrim (msgs : List ChatMessage) :
    msgs.foldl appendTrim [] = msgs.drop (msgs.length - max_history) := by
  induction msgs using List.reverseRecOn with
  | nil => rfl
  | append_singleton l a ih =>
    have h50 : max_history = 50 := rfl
    rw [List.foldl_append, List.foldl_cons, List.foldl_nil, ih]
    by_cases hc : l.length < max_history
    · have hd0 : l.length - max_history = 0 := by omega
      have hd1 : (l ++ [a]).length - max_history = 0 := by
        simp only [List.length_append, List.length_singleton]
        omega
      rw [hd0, hd1, List.drop_zero, List.drop_zero]
      unfold appendTrim
      rw [if_neg (by simp only [List.length_append, List.length_singleton]; omega)]
    · have hge : max_history ≤ l.length := by omega
      have htl : (l.drop (l.length - max_history)).length = max_history := by
        rw [List.length_drop]; omega
      unfold appendTrim
      rw [if_pos (by simp only [List.length_append, htl, List.length_singleton]; omega)]
      have harith : (l.drop (l.length - max_history) ++ [a]).length - max_history = 1 := by
        simp only [List.length_append, htl, List.length_singleton]
        omega
      rw [harith, List.drop_append_of_le_length (by omega), List.drop_drop]
      have harith2 : l.length - max_history + 1 = (l ++ [a]).length - max_history := by
        simp only [List.length_append, List.length_singleton]
        omega
      rw [harith2, List.drop_append_of_le_length
        (by simp only [List.length_append, List.length_singleton]; omega)]

theorem add_to_history_lookup (m : ChatConnectionManager) (room : String) (msg : ChatMessage) :
    lookupA (m.add_to_history room msg).message_history room =
      some (appendTrim ((lookupA m.message_history room).getD []) msg) := by
  unfold ChatConnectionManager.add_to_history
  exact lookupA_insertA_self _ _ _

theorem add_to_history_lookup_ne (m : ChatConnectionManager) (room r : String)
    (msg : ChatMessage) (h : r ≠ room) :
    lookupA (m.add_to_history room msg).message_history r = lookupA m.message_history r := by
  unfold ChatConnectionManager.add_to_history
  exact lookupA_insertA_ne _ _ _ _ h

theorem history_foldl (room : String) (msgs : List ChatMessage) :
    ∀ (m : ChatConnectionManager), msgs ≠ [] →
      lookupA ((msgs.foldl (fun mm msg => mm.add_to_history room msg) m).message_history) room =
        some (msgs.foldl appendTrim ((lookupA m.message_history room).getD [])) := by
  induction msgs with
  | nil => intro m hm; exact absurd rfl hm
  | cons msg rest ih =>
    intro m _
    rw [List.foldl_cons, List.foldl_cons]
    by_cases hrest : rest = []
    · subst hrest
      simp only [List.foldl_nil]
      exact add_to_history_lookup m room msg
    · rw [ih _ hrest, add_to_history_lookup]
      rfl

/-- C3: For every room and every sequence of chat-message appends, the
room's history buffer never holds more than 50 messages; appending to a
buffer already holding 50 evicts exactly the oldest message; and after 51
sequential appends into an absent (empty) buffer the buffer holds exactly
the last 50 messages in arrival order. -/
theorem C3_history_bounded :
    (∀ (m : ChatConnectionManager) (room r : String) (msg : ChatMessage),
      (∀ rr ll, lookupA m.message_history rr = some ll → ll.length ≤ max_history) →
      ∀ ll, lookupA (m.add_to_history room msg).message_history r = some ll →
        ll.length ≤ max_history)
  ∧ (∀ (m : ChatConnectionManager) (room : String) (msg : ChatMessage) (buf : List ChatMessage),
      lookupA m.message_history room = some buf → buf.length = max_history →
      lookupA (m.add_to_history room msg).message_history room = some (buf.tail ++ [msg]))
  ∧ (∀ (m : ChatConnectionManager) (room : String) (msgs : List ChatMessage),
      lookupA m.message_history room = none → msgs.length = max_history + 1 →
      lookupA ((msgs.foldl (fun mm msg => mm.add_to_history room msg) m).message_history) room =
        some (msgs.drop 1)) := by
  refine ⟨?_, ?_, ?_⟩
  · intro m room r msg hbound ll hll
    by_cases hr : r = room
    · subst hr
      rw [add_to_history_lookup] at hll
      have hle : ((lookupA m.message_history r).getD []).length ≤ max_history := by
        cases hx : lookupA m.message_history r with
        | none => simp
        | some l0 => exact hbound r l0 hx
      have hb := appendTrim_length_le _ msg hle
      rwa [Option.some_inj.mp hll] at hb
    · rw [add_to_history_lookup_ne _ _ _ _ hr] at hll
      exact hbound r ll hll
  · intro m room msg buf hbuf hlen
    rw [add_to_history_lookup, hbuf]
    exact congrArg some (appendTrim_evict buf msg hlen)
  · intro m room msgs hnone hlen
    have h50 : max_history = 50 := rfl
    have hne : msgs ≠ [] := by
      intro hh
      rw [hh] at hlen
      simp at hlen
    rw [history_foldl room msgs m hne, hnone]
    have hgetd : (none : Option (List ChatMessage)).getD [] = [] := rfl
    have h1 : max_history + 1 - max_history = 1 := by omega
    rw [hgetd, foldl_appendTrim, hlen, h1]

/-- Witness for C3 at a concrete run: 51 identical messages appended to a
fresh room leave exactly the last 50 (here: the 51-element list minus its
head). -/
theorem C3_history_bounded_witness :
    lookupA ((List.replicate (max_history + 1) (⟨"u1", "Bob", "hi", "t1", none⟩ : ChatMessage)).foldl
        (fun mm msg => mm.add_to_history "R" msg) emptyChat).message_history "R" =
      some ((List.replicate (max_history + 1) (⟨"u1", "Bob", "hi", "t1", none⟩ : ChatMessage)).drop 1) :=
  C3_history_bounded.2.2 emptyChat "R" _ rfl (by simp)

/-- C6 (amended): in every registry state reachable through
connect/disconnect events alone, no empty containers remain: every
(room, document) entry has a client, every collaboration room entry has a
document, and every chat room entry has a connection.  (The chat
broadcast's removal of faulted connections, by contrast, can leave an
empty chat room entry behind; see the counterexample.) -/
theorem C6_no_empty_containers (ops : List CollabOp) (cops : List ChatOp) :
    collabNoEmpty (applyCollabOps ops) ∧ chatNoEmpty (applyChatOps cops) :=
  ⟨(collab_reach_inv ops).2, (chat_reach_inv cops).2⟩

/-- C7: after any sequence of register/unregister events starting from the
empty registry, the participant-count queries return exactly the number of
registered leaf connections under the queried prefix as computed by a full
traversal (hence 0 for an absent prefix, which contributes no leaves). -/
theorem C7_count_correct (ops : List CollabOp) (cops : List ChatOp) (r d : String) :
    (applyCollabOps ops).get_active_users r none =
      (collabLeaves (applyCollabOps ops)).countP (fun t => decide (t.1 = r))
  ∧ (applyCollabOps ops).get_active_users r (some d) =
      (collabLeaves (applyCollabOps ops)).countP (fun t => decide (t.1 = r ∧ t.2.1 = d))
  ∧ (applyChatOps cops).get_active_connections (some r) =
      (chatLeaves (applyChatOps cops)).countP (fun t => decide (t.1 = r)) :=
  ⟨(collab_count_room_eq _ (collab_reach_inv ops).1 r).symm,
   (collab_count_doc_eq _ (collab_reach_inv ops).1 r d).symm,
   (chat_count_eq _ (chat_reach_inv cops).1 r).symm⟩

theorem chat_connect_history (m : ChatConnectionManager) (ws : ConnId) (room : String)
    (faults : List ConnId) :
    (m.connect ws room faults).1.message_history =
      (if (lookupA m.message_history room).isSome then m.message_history
       else insertA m.message_history room []) := by
  simp only [ChatConnectionManager.connect]
  split <;> rfl

/-- C9: on a chat connect, the history envelope is sent (to the new
connection only) exactly when the room's buffer exists and holds at least
one message; an absent or empty buffer produces no send at all. -/
theorem C9_history_envelope_iff (m : ChatConnectionManager) (ws : ConnId) (room : String)
    (faults : List ConnId) :
    (m.connect ws room faults).2 =
      (match lookupA m.message_history room with
       | some (msg0 :: rest) =>
         [⟨ws, dumps (Json.obj [("type", Json.str "history"),
             ("messages", Json.arr ((msg0 :: rest).map ChatMessage.toJson))]),
           decide (ws ∉ faults)⟩]
       | _ => []) := by
  have hsplit : (m.connect ws room faults).2 =
      ((m.connect ws room faults).1).send_history ws room faults := rfl
  rw [hsplit]
  unfold ChatConnectionManager.send_history
  rw [chat_connect_history]
  cases hx : lookupA m.message_history room with
  | none =>
    simp only [hx, Option.isSome_none, Bool.false_eq_true, if_false]
    rw [lookupA_insertA_self]
    simp
  | some msgs =>
    simp only [hx, Option.isSome_some, if_true, hx]
    cases msgs with
    | nil => simp
    | cons m0 rest => simp

/-- C1 counterexample: in the chat relay, a registered recipient whose
send raises during a broadcast IS removed from the room's connection list,
so the post-broadcast connection set differs from the pre-broadcast one
(delivery to the other recipient is still attempted): with connections
[0, 1] and a fault on 0, the room's list afterwards is [1]. -/
theorem C1_counterexample :
    (handleChatMessage (((emptyChat.connect 0 "R" []).1.connect 1 "R" []).1) "R" 0
        "\x7b\"type\": \"message\", \"message\": \x7b\"userId\": \"u1\", \"userName\": \"Bob\", \"text\": \"hi\", \"timestamp\": \"t1\"\x7d\x7d"
        "99" [0]).map (fun p => p.1.active_chats) = some [("R", [1])]
  ∧ (((emptyChat.connect 0 "R" []).1.connect 1 "R" []).1).active_chats = [("R", [0, 1])]
  ∧ ([("R", [1])] : List (String × List ConnId)) ≠ [("R", [0, 1])]
  ∧ (handleChatMessage (((emptyChat.connect 0 "R" []).1.connect 1 "R" []).1) "R" 0
        "\x7b\"type\": \"message\", \"message\": \x7b\"userId\": \"u1\", \"userName\": \"Bob\", \"text\": \"hi\", \"timestamp\": \"t1\"\x7d\x7d"
        "99" [0]).map (fun p => p.2.map Att.conn) = some [0, 1] :=
  ⟨rfl, rfl, by decide, rfl⟩

/-- C1 (amended): a send fault during any broadcast is caught locally and
delivery is still attempted to every other registered recipient; the
collaboration broadcast never mutates the registry (it is a pure read),
while the chat broadcast removes exactly the faulted connections from the
room's list after the delivery loop completes. -/
theorem C1_fault_handling (m : ConnectionManager) (cm : ChatConnectionManager)
    (room doc roomc : String) (msg : WireVal) (fields : List (String × Json))
    (newId : String) (faults : List ConnId)
    {docs : List (String × List (String × ConnId))} {users : List (String × ConnId)}
    {conns : List ConnId}
    (h1 : lookupA m.active_connections room = some docs)
    (h2 : lookupA docs doc = some users)
    (h3 : lookupA cm.active_chats roomc = some conns)
    (h4 : conns.Nodup)
    (h5 : lookupA fields "type" = none) :
    m.broadcast room doc msg faults =
      users.map (fun p => ⟨p.2, msg.toText, decide (p.2 ∉ faults)⟩)
  ∧ cm.broadcast roomc fields newId faults =
      some ((⟨insertA cm.active_chats roomc (conns.filter (fun c => decide (c ∉ faults))),
              cm.message_history⟩ : ChatConnectionManager),
            conns.map (fun c => ⟨c, dumps (Json.obj fields), decide (c ∉ faults)⟩)) := by
  constructor
  · unfold ConnectionManager.broadcast
    simp only [h1, h2]
  · unfold ChatConnectionManager.broadcast
    simp only [h3, h5]
    rw [foldl_erase_filter conns faults h4]

/-- Witness for C1 (amended): concrete two-recipient rooms with a fault on
connection 0; the other recipient is still attempted, and only the chat
room list drops the faulted connection. -/
theorem C1_fault_handling_witness :
    (⟨[("R", [("D", [("A", 0), ("B", 1)])])]⟩ : ConnectionManager).broadcast "R" "D"
        (.text "x") [0] = [⟨0, "x", false⟩, ⟨1, "x", true⟩]
  ∧ (⟨[("R", [0, 1])], []⟩ : ChatConnectionManager).broadcast "R"
        [("data", Json.str "y")] "9" [0] =
      some (⟨[("R", [1])], []⟩,
            [⟨0, "\x7b\"data\": \"y\"\x7d", false⟩, ⟨1, "\x7b\"data\": \"y\"\x7d", true⟩]) := by
  have h := C1_fault_handling ⟨[("R", [("D", [("A", 0), ("B", 1)])])]⟩ ⟨[("R", [0, 1])], []⟩
      "R" "D" "R" (.text "x") [("data", Json.str "y")] "9" [0] rfl rfl rfl (by decide) rfl
  exact ⟨h.1.trans rfl, h.2.trans rfl⟩

/-- C2 counterexample: a sync message is re-serialized from its parsed
JSON before relay, so the delivered bytes can differ from the sent bytes
(json.dumps inserts spaces after ":" and ","): not verbatim. -/
theorem C2_counterexample :
    handleCollabMessage ⟨[("R1", [("D1", [("S", 0), ("C", 1)])])]⟩ "R1" "S" "D1" 0
        "\x7b\"type\":\"sync\",\"data\":\"x\"\x7d" [] =
      some [⟨1, "\x7b\"type\": \"sync\", \"data\": \"x\"\x7d", true⟩]
  ∧ ("\x7b\"type\": \"sync\", \"data\": \"x\"\x7d" : String) ≠
      "\x7b\"type\":\"sync\",\"data\":\"x\"\x7d" :=
  ⟨rfl, by decide⟩

/-- C2 (amended): with exclude = sender, a send is attempted to every
registered connection other than the sender exactly once and never to the
sender's connection, regardless of send faults; an opaque (non-JSON)
payload is relayed verbatim, while a sync payload is relayed as the
json.dumps re-serialization of its parse. -/
theorem C2_update_exclusion (m : ConnectionManager) (room doc sender : String)
    (upd : WireVal) (faults : List ConnId)
    {docs : List (String × List (String × ConnId))} {users : List (String × ConnId)}
    (h1 : lookupA m.active_connections room = some docs)
    (h2 : lookupA docs doc = some users)
    (hnd : (users.map Prod.snd).Nodup) :
    m.broadcast_update room doc sender upd faults =
      (users.filter (fun p => decide (p.1 ≠ sender))).map
        (fun p => ⟨p.2, upd.toText, decide (p.2 ∉ faults)⟩)
  ∧ (∀ p ∈ users, p.1 ≠ sender →
      List.count p.2 ((m.broadcast_update room doc sender upd faults).map Att.conn) = 1)
  ∧ (∀ sc, lookupA users sender = some sc →
      ∀ a ∈ m.broadcast_update room doc sender upd faults, a.conn ≠ sc)
  ∧ (∀ (ws : ConnId) (data : String), loads data = none →
      handleCollabMessage m room sender doc ws data faults =
        some (m.broadcast_update room doc sender (.text data) faults))
  ∧ (∀ (ws : ConnId) (fields : List (String × Json)) (data : String),
      loads data = some (Json.obj fields) →
      lookupA fields "type" = some (Json.str "sync") →
      handleCollabMessage m room sender doc ws data faults =
        some (m.broadcast_update room doc sender (.json (Json.obj fields)) faults)) := by
  have hbase : m.broadcast_update room doc sender upd faults =
      (users.filter (fun p => decide (p.1 ≠ sender))).map
        (fun p => ⟨p.2, upd.toText, decide (p.2 ∉ faults)⟩) := by
    unfold ConnectionManager.broadcast_update
    simp only [h1, h2]
    exact filterMap_if_ne users sender _
  refine ⟨hbase, ?_, ?_, ?_, ?_⟩
  · intro p hp hpne
    rw [hbase, List.map_map]
    have hmem : p ∈ users.filter (fun q => decide (q.1 ≠ sender)) :=
      List.mem_filter.mpr ⟨hp, by simp [hpne]⟩
    have hnd' : ((users.filter (fun q => decide (q.1 ≠ sender))).map Prod.snd).Nodup :=
      List.Nodup.sublist ((List.filter_sublist users).map Prod.snd) hnd
    have hconn : (Att.conn ∘ fun p : String × ConnId =>
        (⟨p.2, upd.toText, decide (p.2 ∉ faults)⟩ : Att)) = Prod.snd := rfl
    rw [hconn]
    exact List.count_eq_one_of_mem hnd' (List.mem_map.mpr ⟨p, hmem, rfl⟩)
  · intro sc hsc a ha hconn
    rw [hbase] at ha
    rcases List.mem_map.mp ha with ⟨p, hpf, rfl⟩
    rcases List.mem_filter.mp hpf with ⟨hpu, hpne⟩
    have hscm : (sender, sc) ∈ users := lookupA_mem hsc
    have := List.inj_on_of_nodup_map hnd hpu hscm hconn
    rw [this] at hpne
    simp at hpne
  · intro ws data hload
    unfold handleCollabMessage
    rw [hload]
  · intro ws fields data hload htype
    unfold handleCollabMessage
    simp [hload, htype]

/-- Witness for C2 (amended): a concrete (room, document) with sender S
and one other client C; the opaque payload "x" is attempted for C only,
verbatim. -/
theorem C2_update_exclusion_witness :
    (⟨[("R1", [("D1", [("S", 0), ("C", 1)])])]⟩ : ConnectionManager).broadcast_update
        "R1" "D1" "S" (.text "x") [] = [⟨1, "x", true⟩] :=
  (C2_update_exclusion ⟨[("R1", [("D1", [("S", 0), ("C", 1)])])]⟩ "R1" "D1" "S"
    (.text "x") [] rfl rfl (by decide)).1.trans rfl

/-- C4 counterexample: a JSON object whose "type" value is unrecognized
(here "foo") is silently dropped by the collaboration dispatch (no sends),
whereas opaque-update handling would have relayed it to the other
registered client. -/
theorem C4_counterexample :
    handleCollabMessage ⟨[("R1", [("D1", [("S", 0), ("C", 1)])])]⟩ "R1" "S" "D1" 0
        "\x7b\"type\":\"foo\"\x7d" [] = some []
  ∧ (⟨[("R1", [("D1", [("S", 0), ("C", 1)])])]⟩ : ConnectionManager).broadcast_update "R1" "D1"
        "S" (.text "\x7b\"type\":\"foo\"\x7d") [] =
      [⟨1, "\x7b\"type\":\"foo\"\x7d", true⟩]
  ∧ ([] : List Att) ≠ [⟨1, "\x7b\"type\":\"foo\"\x7d", true⟩] :=
  ⟨rfl, rfl, by decide⟩

/-- C4 (amended): input that is not JSON, or parses to a non-object, or to
an object without a "type" key, is relayed as an opaque update to everyone
except the sender; an object whose "type" value is anything other than the
strings "sync", "awareness" or "ping" (including non-string values) is
silently dropped. -/
theorem C4_opaque_dispatch (m : ConnectionManager) (room user doc : String) (ws : ConnId)
    (data : String) (faults : List ConnId) :
    (loads data = none →
      handleCollabMessage m room user doc ws data faults =
        some (m.broadcast_update room doc user (.text data) faults))
  ∧ (∀ j, loads data = some j → (∀ fields, j ≠ Json.obj fields) →
      handleCollabMessage m room user doc ws data faults =
        some (m.broadcast_update room doc user (.text data) faults))
  ∧ (∀ fields, loads data = some (Json.obj fields) → lookupA fields "type" = none →
      handleCollabMessage m room user doc ws data faults =
        some (m.broadcast_update room doc user (.text data) faults))
  ∧ (∀ fields t, loads data = some (Json.obj fields) →
      lookupA fields "type" = some (Json.str t) →
      t ≠ "sync" → t ≠ "awareness" → t ≠ "ping" →
      handleCollabMessage m room user doc ws data faults = some [])
  ∧ (∀ fields v, loads data = some (Json.obj fields) →
      lookupA fields "type" = some v → (∀ s, v ≠ Json.str s) →
      handleCollabMessage m room user doc ws data faults = some []) := by
  refine ⟨?_, ?_, ?_, ?_, ?_⟩
  · intro h
    unfold handleCollabMessage
    rw [h]
  · intro j hj hno
    unfold handleCollabMessage
    rw [hj]
    cases j with
    | obj fields => exact absurd rfl (hno fields)
    | null => rfl
    | bool b => rfl
    | num n => rfl
    | str s => rfl
    | arr l => rfl
  · intro fields hj ht
    unfold handleCollabMessage
    simp only [hj, ht]
  · intro fields t hj ht hs ha hp
    unfold handleCollabMessage
    simp [hj, ht, hs, ha, hp]
  · intro fields v hj ht hv
    cases v with
    | str s => exact absurd rfl (hv s)
    | null => unfold handleCollabMessage; simp only [hj, ht]
    | bool b => unfold handleCollabMessage; simp only [hj, ht]
    | num n => unfold handleCollabMessage; simp only [hj, ht]
    | arr l => unfold handleCollabMessage; simp only [hj, ht]
    | obj o => unfold handleCollabMessage; simp only [hj, ht]

/-- Witness for C4 (amended): a non-JSON payload is dispatched as an
opaque update broadcast excluding the sender. -/
theorem C4_opaque_dispatch_witness :
    handleCollabMessage ⟨[("R1", [("D1", [("S", 0), ("C", 1)])])]⟩ "R1" "S" "D1" 0 "zzz" [] =
      some ((⟨[("R1", [("D1", [("S", 0), ("C", 1)])])]⟩ : ConnectionManager).broadcast_update
        "R1" "D1" "S" (.text "zzz") []) :=
  (C4_opaque_dispatch ⟨[("R1", [("D1", [("S", 0), ("C", 1)])])]⟩ "R1" "S" "D1" 0 "zzz" []).1 rfl

/-- C5: the chat relay does not recover from every malformed payload: a
valid-JSON non-object payload such as "[1,2]" reaches message.get, which
raises AttributeError; the exception escapes the message loop (modelled as
none) and the endpoint's outer handler terminates the session, contrary to
the claim that malformed chat input is dropped without terminating the
sender's session.  Non-JSON input is indeed dropped silently (third
conjunct). -/
theorem C5_malformed_terminates :
    handleChatMessage ((emptyChat.connect 0 "R" []).1) "R" 0 "[1,2]" "99" [] = none
  ∧ loads "[1,2]" = some (Json.arr [Json.num 1, Json.num 2])
  ∧ handleChatMessage ((emptyChat.connect 0 "R" []).1) "R" 0 "not json" "99" [] =
      some ((emptyChat.connect 0 "R" []).1, []) :=
  ⟨rfl, rfl, rfl⟩

/-- C6 counterexample: a reachable chat registry state violates the
no-empty-containers invariant: with the single connection 0 in room "R", a
chat message broadcast whose send to 0 faults removes 0 from the room's
list without pruning the now-empty entry, leaving ("R", []) in the
registry. -/
theorem C6_counterexample :
    handleChatMessage ((emptyChat.connect 0 "R" []).1) "R" 0
        "\x7b\"type\": \"message\", \"message\": \x7b\"userId\": \"u1\", \"userName\": \"Bob\", \"text\": \"hi\", \"timestamp\": \"t1\"\x7d\x7d"
        "99" [0] =
      some ((⟨[("R", [])], [("R", [⟨"u1", "Bob", "hi", "t1", some "99"⟩])]⟩ :
              ChatConnectionManager),
            [⟨0, "\x7b\"type\": \"message\", \"message\": \x7b\"userId\": \"u1\", \"userName\": \"Bob\", \"text\": \"hi\", \"timestamp\": \"t1\", \"id\": \"99\"\x7d\x7d", false⟩])
  ∧ ¬ chatNoEmpty (⟨[("R", [])], [("R", [⟨"u1", "Bob", "hi", "t1", some "99"⟩])]⟩ :
        ChatConnectionManager) := by
  refine ⟨rfl, ?_⟩
  intro h
  exact h ("R", []) (List.mem_singleton.mpr rfl) rfl

/-- C8 counterexample: a disconnect event whose unregister fails (the key
is no longer present, because user B's second connect replaced the first
connection and an earlier disconnect already removed the entry) still
triggers an awareness broadcast that reaches the remaining participant A,
so re-broadcast is not conditional on the removal having succeeded. -/
theorem C8_counterexample :
    (handleCollabDisconnect
        (handleCollabDisconnect
          ((((emptyCollab.connect 0 "R" "A" "D" []).1).connect 1 "R" "B" "D" []).1.connect
            2 "R" "B" "D" []).1
          "R" "B" "D" []).1.1
        "R" "B" "D" []).1.2 = false
  ∧ (handleCollabDisconnect
        (handleCollabDisconnect
          ((((emptyCollab.connect 0 "R" "A" "D" []).1).connect 1 "R" "B" "D" []).1.connect
            2 "R" "B" "D" []).1
          "R" "B" "D" []).1.1
        "R" "B" "D" []).2 =
      [⟨0, "\x7b\"type\": \"awareness\", \"users\": [\"A\"], \"count\": 1\x7d", true⟩] :=
  ⟨rfl, rfl⟩

/-- C8 (amended): on a collaboration disconnect event the relay
unregisters the (room, document, user) entry and then broadcasts a fresh
awareness message unconditionally (whether or not the removal succeeded);
the broadcast reaches the remaining registered participants whenever the
(room, document) entry still exists.  In particular, after B disconnects
from a document shared with A, A receives an awareness message listing
only A with count 1. -/
theorem C8_disconnect_awareness (m : ConnectionManager) (room user doc : String)
    (faults : List ConnId) :
    (handleCollabDisconnect m room user doc faults).1 = m.disconnect room user doc
  ∧ (handleCollabDisconnect m room user doc faults).2 =
      (m.disconnect room user doc).1.broadcast_awareness room doc faults
  ∧ (handleCollabDisconnect ⟨[("R", [("D", [("A", 0), ("B", 1)])])]⟩ "R" "B" "D" []).1.2 = true
  ∧ (handleCollabDisconnect ⟨[("R", [("D", [("A", 0), ("B", 1)])])]⟩ "R" "B" "D" []).2 =
      [⟨0, "\x7b\"type\": \"awareness\", \"users\": [\"A\"], \"count\": 1\x7d", true⟩] :=
  ⟨rfl, rfl, rfl, rfl⟩

theorem add_to_history_active (m : ChatConnectionManager) (room : String) (msg : ChatMessage) :
    (m.add_to_history room msg).active_chats = m.active_chats := rfl

/-- C10: when a chat "message" envelope arrives without an id, the relay
inserts the generated id into the message dict in place; the very same id
ends up both in the ChatMessage stored in the room's history and in the
serialized envelope delivered to every recipient of the broadcast. -/
theorem C10_id_consistency (m : ChatConnectionManager) (room : String)
    (fields mdf : List (String × Json)) (uid un tx ts newId : String)
    (faults : List ConnId) {conns : List ConnId}
    (hc : lookupA m.active_chats room = some conns)
    (ht : lookupA fields "type" = some (Json.str "message"))
    (hm : lookupA fields "message" = some (Json.obj mdf))
    (hid : lookupA mdf "id" = none)
    (hu : lookupA mdf "userId" = some (Json.str uid))
    (hn : lookupA mdf "userName" = some (Json.str un))
    (htx : lookupA mdf "text" = some (Json.str tx))
    (hts : lookupA mdf "timestamp" = some (Json.str ts)) :
    (⟨uid, un, tx, ts, some newId⟩ : ChatMessage).id = some newId
  ∧ lookupA (insertA mdf "id" (Json.str newId)) "id" = some (Json.str newId)
  ∧ m.broadcast room fields newId faults =
      some ((⟨insertA m.active_chats room
                ((conns.filter (fun c => decide (c ∈ faults))).foldl
                  (fun acc c => acc.erase c) conns),
              (m.add_to_history room ⟨uid, un, tx, ts, some newId⟩).message_history⟩ :
              ChatConnectionManager),
            conns.map (fun c =>
              ⟨c, dumps (Json.obj (insertA fields "message"
                  (Json.obj (insertA mdf "id" (Json.str newId))))),
               decide (c ∉ faults)⟩)) := by
  have hmk : mkChatMessage (insertA mdf "id" (Json.str newId)) =
      some ⟨uid, un, tx, ts, some newId⟩ := by
    unfold mkChatMessage
    rw [lookupA_insertA_ne _ _ _ _ (by decide), lookupA_insertA_ne _ _ _ _ (by decide),
      lookupA_insertA_ne _ _ _ _ (by decide), lookupA_insertA_ne _ _ _ _ (by decide),
      hu, hn, htx, hts, lookupA_insertA_self]
  refine ⟨rfl, lookupA_insertA_self _ _ _, ?_⟩
  unfold ChatConnectionManager.broadcast
  simp [hc, ht, hm, hid, hmk, add_to_history_active]

/-- Witness for C10 at a concrete broadcast: connections 5 and 7, message
without id, generated id "42"; both the stored history entry and each
delivered envelope carry id "42". -/
theorem C10_id_consistency_witness :
    (⟨[("R", [5, 7])], []⟩ : ChatConnectionManager).broadcast "R"
        [("type", Json.str "message"),
         ("message", Json.obj [("userId", Json.str "u1"), ("userName", Json.str "Bob"),
           ("text", Json.str "hi"), ("timestamp", Json.str "t1")])] "42" [] =
      some ((⟨[("R", [5, 7])], [("R", [⟨"u1", "Bob", "hi", "t1", some "42"⟩])]⟩ :
              ChatConnectionManager),
            [⟨5, "\x7b\"type\": \"message\", \"message\": \x7b\"userId\": \"u1\", \"userName\": \"Bob\", \"text\": \"hi\", \"timestamp\": \"t1\", \"id\": \"42\"\x7d\x7d", true⟩,
             ⟨7, "\x7b\"type\": \"message\", \"message\": \x7b\"userId\": \"u1\", \"userName\": \"Bob\", \"text\": \"hi\", \"timestamp\": \"t1\", \"id\": \"42\"\x7d\x7d", true⟩]) :=
  ((C10_id_consistency (⟨[("R", [5, 7])], []⟩ : ChatConnectionManager) "R"
      [("type", Json.str "message"),
       ("message", Json.obj [("userId", Json.str "u1"), ("userName", Json.str "Bob"),
         ("text", Json.str "hi"), ("timestamp", Json.str "t1")])]
      [("userId", Json.str "u1"), ("userName", Json.str "Bob"),
       ("text", Json.str "hi"), ("timestamp", Json.str "t1")]
      "u1" "Bob" "hi" "t1" "42" [] rfl rfl rfl rfl rfl rfl rfl rfl).2.2).trans rfl
